import Mathlib

/-
Shallow embedding of the delayed-retry scheduler (package retry).

Sources embedded here, at the current revision of the repository:
  retry.go       : Config, message / Message, computeMessageDelay, sendToQueue,
                   workMessage, Job, pollOnce and the MaxQueueDelaySeconds
                   constant of the Retrier;
  backoff file   : BackoffFunc over time.Duration, ExponentialBackoff,
                   LinearBackoff, ConstantBackoff;
  mock file      : mockSQS (with mockClock) and mockFunc, the test doubles the
                   repository tests drive pollOnce with.

Modelling conventions:
  - instants (time.Time) are unbounded integers counting nanoseconds; the Go
    wall clock never comes near the int64 second range, so Time arithmetic is
    modelled exactly;
  - durations (time.Duration) are int64 nanosecond counts: every arithmetic
    step the Go code performs on a Duration wraps modulo 2 ^ 64 into
    [-2 ^ 63, 2 ^ 63), which i64wrap makes explicit at each operation taken
    from the source;
  - Duration.Seconds() followed by the int64 conversion in sendToQueue is
    modelled as division by 10 ^ 9 truncating toward zero (truncDiv); the
    float64 detour of Seconds() is exact on this integral part for every
    duration below 2 ^ 53 nanoseconds and never changes a comparison or a
    truncation relevant to the claims;
  - the comparison additionalDelay.Seconds() > 5 of computeMessageDelay is
    equivalent, for int64 nanosecond counts, to additionalDelay > 5 * 10 ^ 9,
    and is embedded that way;
  - attemptedCount has Go type uint and MaxAttempts has Go type int; their
    widths are platform dependent and no reachable execution of this program
    approaches them, so they are modelled as Nat and Int without wrap;
  - json.Marshal of the message record cannot fail and the round trip through
    the queue body is lossless, so queue bodies store the record itself; a
    received body is nil, malformed, or a well-formed record (SQSBody);
  - the Retrier fields (clock, queue client) and the Config callbacks are
    passed explicitly: Env carries the clock and the three queue gateway
    operations over an abstract state, Config carries MaxAttempts, the backoff
    strategy and the two callbacks, exactly the fields of the Go Config that
    the core logic reads.  Callbacks thread the same state so that the test
    doubles (which count their invocations) are instances.
-/

/-- Nanoseconds per second, the scale of the Go time.Duration type (an int64
count of nanoseconds); time.Second is this value as a Duration. -/
def nsPerSecond : Int := 1000000000

/-- Reinterpretation of an unbounded integer as a signed 64-bit value: wrap
modulo 2 ^ 64 into [-2 ^ 63, 2 ^ 63).  This is what every overflowing Go
arithmetic operation on time.Duration (int64) produces. -/
def i64wrap (x : Int) : Int := (x + 2 ^ 63) % 2 ^ 64 - 2 ^ 63

/-- Division truncating toward zero.  Models the Go conversion
int64(d.Seconds()): the quotient of a Duration by time.Second with the
fractional part discarded toward zero. -/
def truncDiv (a b : Int) : Int := if 0 ≤ a then a / b else -(-a / b)

/-- MaxQueueDelaySeconds from retry.go: the maximum number of seconds a
message can be delayed in the queue (SQS allows up to 900).  The current
revision declares it but no longer applies it anywhere. -/
def MaxQueueDelaySeconds : Int := 900

/-- The public Message record handed to the caller-supplied Handler:
an opaque job identity and the attempt counter. -/
structure Message where
  ID : Int
  AttemptedCount : Nat
deriving DecidableEq

/-- The private message envelope of retry.go: the embedded public Message
plus the two scheduling timestamps, serialized as the queue body. -/
structure message where
  toMessage : Message
  ReceivedTime : Int
  NextAttempt : Int
deriving DecidableEq

/-- Promotion of the embedded field, as Go field promotion does. -/
def message.AttemptedCount (m : message) : Nat := m.toMessage.AttemptedCount

/-- Promotion of the embedded field, as Go field promotion does. -/
def message.ID (m : message) : Int := m.toMessage.ID

/-- BackoffFunc: attempt number (uint) to delay (time.Duration). -/
def BackoffFunc : Type := Nat → Int

/-- ExponentialBackoff from the backoff file: attempt 0 yields 0, attempt n
yields seedDelay shifted left by n - 1.  A Go left shift of an int64 discards
the high bits, which is exactly multiplication by 2 ^ (n - 1) followed by
i64wrap (iterated doubling modulo 2 ^ 64). -/
def ExponentialBackoff (seedDelay : Int) : BackoffFunc := fun attempt =>
  if attempt == 0 then 0 else i64wrap (seedDelay * 2 ^ (attempt - 1))

/-- LinearBackoff from the backoff file: seedDelay * time.Duration(attempt).
The uint to Duration conversion reinterprets the 64-bit pattern (inner
i64wrap) and the product is int64 multiplication (outer i64wrap). -/
def LinearBackoff (seedDelay : Int) : BackoffFunc := fun attempt =>
  i64wrap (seedDelay * i64wrap (attempt : Int))

/-- ConstantBackoff from the backoff file: attempt 0 yields 0, any later
attempt yields the seed unchanged. -/
def ConstantBackoff (seedDelay : Int) : BackoffFunc := fun attempt =>
  if attempt == 0 then 0 else seedDelay

/-- The fields of the Go Config that the core logic reads (queue identity and
credentials are wiring for the real gateway and carry no logic).  The two
callbacks thread the abstract state so counting test doubles are instances;
Handler receives the public Message and returns the completion flag,
ErrorHandler consumes a reported error. -/
structure Config (σ : Type) where
  MaxAttempts : Int
  BackoffStrategy : BackoffFunc
  ErrorHandler : σ → σ
  Handler : Message → σ → σ × Bool

/-- A received queue body: nil, not deserializable, or the JSON of a message
record (the round trip is lossless, so the record itself is stored). -/
inductive SQSBody where
  | nilBody : SQSBody
  | badBody : SQSBody
  | jsonOf : message → SQSBody

/-- Outcome of one ReceiveMessage call: a transport error, no message
delivered (the long poll elapsed), or one delivered message with its body and
receipt handle. -/
inductive ReceiveOutcome where
  | recvError : ReceiveOutcome
  | noMessage : ReceiveOutcome
  | delivered : SQSBody → Nat → ReceiveOutcome

/-- The collaborators a Retrier holds besides its Config: the clock and the
queue gateway (SendMessage and DeleteMessage report success as false and a
transport error as true, matching a non-nil Go error). -/
structure Env (σ : Type) where
  now : σ → Int
  receiveMessage : σ → σ × ReceiveOutcome
  sendMessage : σ → message → Int → σ × Bool
  deleteMessage : σ → Nat → σ × Bool

/-- The budget test of pollOnce: MaxAttempts != 0 and
int(AttemptedCount) >= MaxAttempts. -/
def budgetExhausted (maxAttempts : Int) (attemptedCount : Nat) : Bool :=
  maxAttempts != 0 && decide (maxAttempts ≤ (attemptedCount : Int))

/-- computeMessageDelay from retry.go.  Slack above the five second threshold
returns the envelope unchanged with skip = true; otherwise the attempt
counter is incremented, the backoff of the new counter is computed, and
NextAttempt is advanced by time.Duration(delay) * time.Second - the literal
source expression, which multiplies the Duration returned by the backoff
strategy by 10 ^ 9 with int64 wraparound.  The second component is the
returned skip flag (true means not due). -/
def computeMessageDelay (now : Int) (backoff : BackoffFunc) (m : message) :
    message × Bool :=
  let additionalDelay := m.NextAttempt - now
  if 5 * nsPerSecond < additionalDelay then (m, true)
  else
    let count := m.toMessage.AttemptedCount + 1
    let delay := backoff count
    ({ m with toMessage := { m.toMessage with AttemptedCount := count },
              NextAttempt := m.NextAttempt + i64wrap (delay * nsPerSecond) },
     false)

/-- sendToQueue from retry.go: marshal the envelope (cannot fail for this
record), compute delay = NextAttempt - now, and invoke SendMessage with
DelaySeconds = int64(delay.Seconds()), the gap truncated to whole seconds.
No clamping of any kind is applied.  Returns the new state and the error
flag of the send. -/
def sendToQueue {σ : Type} (env : Env σ) (m : message) (s : σ) : σ × Bool :=
  env.sendMessage s m (truncDiv (m.NextAttempt - env.now s) nsPerSecond)

/-- workMessage from retry.go: reconcile the envelope; when due, invoke the
Handler on the public Message and stop on completion; otherwise (not due, or
due but incomplete) re-enqueue the envelope.  The Bool is the non-nil error
flag of the call (only a failed send produces one).  The unused binding keeps
the Go parameter name for the incoming envelope. -/
def workMessage {σ : Type} (env : Env σ) (cfg : Config σ) (m0 : message)
    (s : σ) : σ × Bool :=
  let cmd := computeMessageDelay (env.now s) cfg.BackoffStrategy m0
  if cmd.2 then sendToQueue env cmd.1 s
  else
    let hr := cfg.Handler cmd.1.toMessage s
    if hr.2 then (hr.1, false)
    else sendToQueue env cmd.1 hr.1

/-- Job from retry.go: build a fresh envelope with AttemptedCount 0,
ReceivedTime now and NextAttempt now + BackoffStrategy(0) (the Duration is
added directly here, with no scaling), then run the same workMessage path the
poll loop uses. -/
def Job {σ : Type} (env : Env σ) (cfg : Config σ) (id : Int) (s : σ) :
    σ × Bool :=
  let now := env.now s
  workMessage env cfg ⟨⟨id, 0⟩, now, now + cfg.BackoffStrategy 0⟩ s

/-- pollOnce from retry.go: one receive; on a transport error, a nil body or
a malformed body report and stop; on a message whose budget is exhausted
deliberately do nothing further; otherwise run workMessage (reporting a
non-nil error) and then delete the original queue message (reporting a failed
delete).  Note the delete runs even when workMessage returned an error. -/
def pollOnce {σ : Type} (env : Env σ) (cfg : Config σ) (s : σ) : σ :=
  let rcv := env.receiveMessage s
  match rcv.2 with
  | ReceiveOutcome.recvError => cfg.ErrorHandler rcv.1
  | ReceiveOutcome.noMessage => rcv.1
  | ReceiveOutcome.delivered body handle =>
    match body with
    | SQSBody.nilBody => cfg.ErrorHandler rcv.1
    | SQSBody.badBody => cfg.ErrorHandler rcv.1
    | SQSBody.jsonOf m =>
      if budgetExhausted cfg.MaxAttempts m.toMessage.AttemptedCount then rcv.1
      else
        let wrk := workMessage env cfg m rcv.1
        let s2 := if wrk.2 then cfg.ErrorHandler wrk.1 else wrk.1
        let del := env.deleteMessage s2 handle
        if del.2 then cfg.ErrorHandler del.1 else del.1

/-- n iterations of the poll loop body (the test harness calls pollOnce in a
counted loop). -/
def pollN {σ : Type} (env : Env σ) (cfg : Config σ) : Nat → σ → σ
  | 0, s => s
  | n + 1, s => pollOnce env cfg (pollN env cfg n s)

/-- State of the test doubles: the mockClock instant, the mockSQS storage
(receipt handle paired with the stored record - the Go map holds at most one
entry whenever ReceiveMessage runs in these scenarios, so a list read at its
head is an exact model), the mockFunc invocation counter, and the invocation
counters of the three queue operations.  observedCounts and sentDelays are
instrumentation recording, in order, the AttemptedCount each Handler
invocation received and the DelaySeconds each SendMessage received. -/
structure MockState where
  time : Int
  storage : List (Nat × message)
  handlerInvokedCount : Int
  observedCounts : List Nat
  receiveMessageInvokedCount : Nat
  sendMessageInvokedCount : Nat
  deleteMessageInvokedCount : Nat
  sentDelays : List Int
  errorCount : Nat
deriving DecidableEq

/-- mockSQS.ReceiveMessage: count the call; deliver the stored message, if
any, without removing it. -/
def mockReceive (s : MockState) : MockState × ReceiveOutcome :=
  let s1 := { s with
    receiveMessageInvokedCount := s.receiveMessageInvokedCount + 1 }
  match s1.storage with
  | [] => (s1, ReceiveOutcome.noMessage)
  | (h, m) :: _ => (s1, ReceiveOutcome.delivered (SQSBody.jsonOf m) h)

/-- mockSQS.SendMessage: count the call, store the body under a fresh handle,
and advance the mockClock by time.Duration(DelaySeconds) * time.Second
(int64 multiplication, hence i64wrap).  Never fails. -/
def mockSend (s : MockState) (m : message) (delaySeconds : Int) :
    MockState × Bool :=
  let c := s.sendMessageInvokedCount + 1
  ({ s with sendMessageInvokedCount := c,
            storage := s.storage ++ [(c, m)],
            sentDelays := s.sentDelays ++ [delaySeconds],
            time := s.time + i64wrap (delaySeconds * nsPerSecond) },
   false)

/-- mockSQS.DeleteMessage: count the call and remove the entry stored under
the given receipt handle.  Never fails. -/
def mockDelete (s : MockState) (h : Nat) : MockState × Bool :=
  ({ s with deleteMessageInvokedCount := s.deleteMessageInvokedCount + 1,
            storage := s.storage.filter (fun p => p.1 != h) },
   false)

/-- The test-double environment: mockClock as the clock, mockSQS as the
gateway. -/
def mockEnv : Env MockState where
  now := fun s => s.time
  receiveMessage := mockReceive
  sendMessage := mockSend
  deleteMessage := mockDelete

/-- A SendMessage transport failure: the call is counted, nothing is stored,
and a non-nil error is returned.  Clock and gateway otherwise as mockEnv. -/
def mockSendFail (s : MockState) (_m : message) (_delaySeconds : Int) :
    MockState × Bool :=
  ({ s with sendMessageInvokedCount := s.sendMessageInvokedCount + 1 }, true)

/-- Environment identical to mockEnv except that every send fails. -/
def mockEnvSendFail : Env MockState where
  now := fun s => s.time
  receiveMessage := mockReceive
  sendMessage := mockSendFail
  deleteMessage := mockDelete

/-- mockFunc.invoke: count the invocation, record the AttemptedCount the
Handler observed, and report completion once the invocation counter reaches
SucceedOnAttemptNumber. -/
def mockFuncInvoke (succeedOn : Int) (msg : Message) (s : MockState) :
    MockState × Bool :=
  ({ s with handlerInvokedCount := s.handlerInvokedCount + 1,
            observedCounts := s.observedCounts ++ [msg.AttemptedCount] },
   decide (succeedOn ≤ s.handlerInvokedCount + 1))

/-- The Config the tests build: given budget, backoff and the mockFunc
success threshold; the error handler counts reported errors (the test fails
on any). -/
def mockConfig (maxAttempts : Int) (backoff : BackoffFunc) (succeedOn : Int) :
    Config MockState where
  MaxAttempts := maxAttempts
  BackoffStrategy := backoff
  ErrorHandler := fun s => { s with errorCount := s.errorCount + 1 }
  Handler := mockFuncInvoke succeedOn

/-- The initial test-double state: zero clock, empty queue, all counters
zero. -/
def mockInit : MockState :=
  { time := 0, storage := [], handlerInvokedCount := 0, observedCounts := [],
    receiveMessageInvokedCount := 0, sendMessageInvokedCount := 0,
    deleteMessageInvokedCount := 0, sentDelays := [], errorCount := 0 }

/-- One full test run: submit Job 0 and then run the poll loop a given number
of times, exactly as the repository test harness does. -/
def runRetry (maxAttempts : Int) (backoff : BackoffFunc) (succeedOn : Int)
    (polls : Nat) : MockState :=
  pollN mockEnv (mockConfig maxAttempts backoff succeedOn) polls
    (Job mockEnv (mockConfig maxAttempts backoff succeedOn) 0 mockInit).1

/-- A fresh envelope that is due immediately (slack zero at clock 0). -/
def exFresh : message := ⟨⟨0, 0⟩, 0, 0⟩

/-- An envelope whose slack at clock 0 is six seconds, above the five second
tolerance threshold. -/
def exNotDue : message := ⟨⟨0, 0⟩, 0, 6 * nsPerSecond⟩

/-- An envelope on its first retry, due at clock 0. -/
def exDueOnce : message := ⟨⟨0, 1⟩, 0, 0⟩

/-- A queue state holding the due envelope under handle 1, used to drive a
cycle whose re-enqueue send fails. -/
def exSendFailState : MockState := { mockInit with storage := [(1, exDueOnce)] }

/-- Loop invariant of the always-incomplete scenario: the exact test-double
state after the job submission and k completed poll cycles, while the budget
is not yet hit.  One envelope rests in the queue under handle k + 1, carrying
attempt counter k + 1, with less than one second of slack in either
direction; the handler has run k + 1 times, the queue saw k receives, k + 1
sends and k deletes, and no error was ever reported. -/
def pollInv (k : Nat) (s : MockState) : Prop :=
  ∃ m : message,
    s.storage = [(k + 1, m)] ∧
    m.toMessage.AttemptedCount = k + 1 ∧
    -nsPerSecond < m.NextAttempt - s.time ∧
    m.NextAttempt - s.time < nsPerSecond ∧
    s.handlerInvokedCount = (k : Int) + 1 ∧
    s.receiveMessageInvokedCount = k ∧
    s.sendMessageInvokedCount = k + 1 ∧
    s.deleteMessageInvokedCount = k ∧
    s.errorCount = 0

/-- Values already in the signed 64-bit range are fixed by the wrap. -/
theorem i64wrap_eq_self {x : Int} (h1 : -(2 ^ 63) ≤ x) (h2 : x < 2 ^ 63) :
    i64wrap x = x := by
  unfold i64wrap
  rw [Int.emod_eq_of_lt (by omega) (by omega)]
  omega

/-- The wrap always lands in the signed 64-bit range. -/
theorem i64wrap_mem (x : Int) : -(2 ^ 63) ≤ i64wrap x ∧ i64wrap x < 2 ^ 63 := by
  unfold i64wrap
  have h1 := Int.emod_nonneg (x + 2 ^ 63) (by norm_num : (2 ^ 64 : Int) ≠ 0)
  have h2 := Int.emod_lt_of_pos (x + 2 ^ 63) (by norm_num : (0 : Int) < 2 ^ 64)
  omega

/-- The truncating second conversion: the scaled-back quotient stays between
zero and the dividend, and the discarded remainder is less than one second in
magnitude. -/
theorem truncDiv_sec_spec (d : Int) :
    (0 ≤ d → 0 ≤ truncDiv d nsPerSecond * nsPerSecond ∧
      truncDiv d nsPerSecond * nsPerSecond ≤ d) ∧
    (d ≤ 0 → d ≤ truncDiv d nsPerSecond * nsPerSecond ∧
      truncDiv d nsPerSecond * nsPerSecond ≤ 0) ∧
    -nsPerSecond < d - truncDiv d nsPerSecond * nsPerSecond ∧
    d - truncDiv d nsPerSecond * nsPerSecond < nsPerSecond := by
  unfold truncDiv nsPerSecond
  split
  · omega
  · omega

/-- C7: every stock backoff policy variant (constant, linear, exponential),
for every seed delay, yields a delay of 0 at attempt number 0 - the first
execution is immediate, never delayed. -/
theorem backoff_attempt_zero (seedDelay : Int) :
    ExponentialBackoff seedDelay 0 = 0 ∧ LinearBackoff seedDelay 0 = 0 ∧
    ConstantBackoff seedDelay 0 = 0 := by
  have h0 : i64wrap 0 = 0 := by decide
  refine ⟨rfl, ?_, rfl⟩
  simp [LinearBackoff, h0]

/-- C8: for every seed delay and attempt n greater or equal 1, within the
int64 range the claim acknowledges (overflow is the caller's responsibility):
LinearBackoff gives seed * n, ExponentialBackoff gives seed * 2 ^ (n - 1)
(the left shift of the Duration), ConstantBackoff gives the seed. -/
theorem backoff_formulas (seedDelay : Int) (n : Nat)
    (hn : 1 ≤ n) (hn64 : (n : Int) < 2 ^ 63)
    (hl1 : -(2 ^ 63) ≤ seedDelay * (n : Int))
    (hl2 : seedDelay * (n : Int) < 2 ^ 63)
    (he1 : -(2 ^ 63) ≤ seedDelay * 2 ^ (n - 1))
    (he2 : seedDelay * 2 ^ (n - 1) < 2 ^ 63) :
    LinearBackoff seedDelay n = seedDelay * (n : Int) ∧
    ExponentialBackoff seedDelay n = seedDelay * 2 ^ (n - 1) ∧
    ConstantBackoff seedDelay n = seedDelay := by
  obtain ⟨k, rfl⟩ : ∃ k, n = k + 1 := ⟨n - 1, (Nat.succ_pred_eq_of_pos hn).symm⟩
  refine ⟨?_, ?_, rfl⟩
  · show i64wrap (seedDelay * i64wrap ((k + 1 : Nat) : Int)) = _
    have hinner : i64wrap ((k + 1 : Nat) : Int) = ((k + 1 : Nat) : Int) :=
      i64wrap_eq_self (by omega) hn64
    rw [hinner]
    exact i64wrap_eq_self hl1 hl2
  · show i64wrap (seedDelay * 2 ^ (k + 1 - 1)) = _
    exact i64wrap_eq_self he1 he2

/-- Witness for backoff_formulas at seed 5 seconds and attempt 4. -/
theorem backoff_formulas_witness :
    LinearBackoff 5000000000 4 = 20000000000 ∧
    ExponentialBackoff 5000000000 4 = 40000000000 ∧
    ConstantBackoff 5000000000 4 = 5000000000 := by
  have h := backoff_formulas 5000000000 4 (by decide) (by decide) (by decide)
    (by decide) (by decide) (by decide)
  refine ⟨?_, ?_, h.2.2⟩
  · rw [h.1]; decide
  · rw [h.2.1]; decide

/-- C1 failing input, evaluated.  A fresh envelope with zero slack is decided
due and the counter is incremented by exactly 1, but NextAttempt is advanced
by time.Duration(policy(1)) * time.Second: with LinearBackoff seeded at 10
seconds this scales the 10 ^ 10 nanosecond delay by a further 10 ^ 9 and
overflows int64, so NextAttempt lands 8446744073709551616 nanoseconds in the
past instead of the 10 ^ 10 nanoseconds ahead that the specification (and the
elapsed-time expectations of the repository test) require. -/
theorem computeMessageDelay_advance_divergence :
    (computeMessageDelay 0 (LinearBackoff (10 * nsPerSecond)) exFresh).2 = false ∧
    (computeMessageDelay 0 (LinearBackoff (10 * nsPerSecond))
        exFresh).1.toMessage.AttemptedCount = 1 ∧
    (computeMessageDelay 0 (LinearBackoff (10 * nsPerSecond))
        exFresh).1.NextAttempt = -8446744073709551616 ∧
    (computeMessageDelay 0 (LinearBackoff (10 * nsPerSecond))
        exFresh).1.NextAttempt ≠
      exFresh.NextAttempt + LinearBackoff (10 * nsPerSecond) 1 := by
  decide

/-- C4 failing input, evaluated.  Submitting a job under LinearBackoff seeded
at 1000 seconds makes the scheduler invoke SendMessage with DelaySeconds
3875820019 (the raw, unclamped gap - itself corrupted by the Duration
scaling bug), which exceeds MaxQueueDelaySeconds; no send site applies the
clamp the claim describes. -/
theorem sendToQueue_delay_unclamped :
    (runRetry 2 (LinearBackoff (1000 * nsPerSecond)) 2 0).sentDelays =
      [3875820019] ∧
    ¬ (3875820019 : Int) ≤ MaxQueueDelaySeconds := by
  decide

/-- C5 failing input, evaluated.  A due message whose handler signals
incompletion and whose re-enqueue send fails: the error is reported (one
ErrorHandler invocation), yet the cycle does not abort - DeleteMessage still
runs and the original queue message is removed, leaving the job in neither
the queue nor the handler's hands. -/
theorem pollOnce_send_failure_still_deletes :
    (pollOnce mockEnvSendFail (mockConfig 0 (ConstantBackoff (5 * nsPerSecond)) 99)
        exSendFailState).errorCount = 1 ∧
    (pollOnce mockEnvSendFail (mockConfig 0 (ConstantBackoff (5 * nsPerSecond)) 99)
        exSendFailState).handlerInvokedCount = 1 ∧
    (pollOnce mockEnvSendFail (mockConfig 0 (ConstantBackoff (5 * nsPerSecond)) 99)
        exSendFailState).deleteMessageInvokedCount = 1 ∧
    (pollOnce mockEnvSendFail (mockConfig 0 (ConstantBackoff (5 * nsPerSecond)) 99)
        exSendFailState).storage = [] := by
  decide

/-- C6 counterexample.  With budget N = 2, an always-incomplete work function
and N - 1 = 1 poll cycle, the claim predicts 2 work invocations, 1 send,
1 receive and 0 deletes; the code performs 2 work invocations, 2 sends,
1 receive and 1 delete (the job submission itself already sends once, and the
single cycle completes with a delete - the budget is only hit on cycle N). -/
theorem budget_exhaustion_claim_false :
    ¬ ((runRetry 2 (LinearBackoff (4 * nsPerSecond)) 99 1).handlerInvokedCount = 2 ∧
       (runRetry 2 (LinearBackoff (4 * nsPerSecond)) 99 1).sendMessageInvokedCount = 1 ∧
       (runRetry 2 (LinearBackoff (4 * nsPerSecond)) 99 1).receiveMessageInvokedCount = 1 ∧
       (runRetry 2 (LinearBackoff (4 * nsPerSecond)) 99 1).deleteMessageInvokedCount = 0) := by
  decide

/-- C2: an envelope whose slack exceeds the five second tolerance threshold
is returned unchanged with skip = true (dueNow false), and iterating the
reconciler any number of times under an unchanged clock leaves the envelope
- in particular its attempt counter and NextAttempt - untouched. -/
theorem reconcile_not_due_unchanged (now : Int) (backoff : BackoffFunc)
    (m : message) (h : 5 * nsPerSecond < m.NextAttempt - now) :
    computeMessageDelay now backoff m = (m, true) ∧
    ∀ k : Nat, (fun x => (computeMessageDelay now backoff x).1)^[k] m = m := by
  have h1 : computeMessageDelay now backoff m = (m, true) := by
    unfold computeMessageDelay
    rw [if_pos h]
  refine ⟨h1, fun k => Function.iterate_fixed ?_ k⟩
  show (computeMessageDelay now backoff m).1 = m
  rw [h1]

/-- Witness for reconcile_not_due_unchanged: six seconds of slack at clock 0
under a constant seven second backoff. -/
theorem reconcile_not_due_unchanged_witness :
    5 * nsPerSecond < exNotDue.NextAttempt - 0 ∧
    computeMessageDelay 0 (ConstantBackoff (7 * nsPerSecond)) exNotDue =
      (exNotDue, true) ∧
    (fun x => (computeMessageDelay 0 (ConstantBackoff (7 * nsPerSecond)) x).1)^[3]
      exNotDue = exNotDue := by
  have hs : 5 * nsPerSecond < exNotDue.NextAttempt - 0 := by decide
  have h := reconcile_not_due_unchanged 0 (ConstantBackoff (7 * nsPerSecond))
    exNotDue hs
  exact ⟨hs, h.1, h.2 3⟩

/-- When the received message's budget is exhausted, one poll cycle is
exactly a counted receive: the state is otherwise untouched (no handler, no
send, no delete, no error). -/
theorem pollOnce_budget_aux (cfg : Config MockState) (s : MockState)
    (hdl : Nat) (m : message) (rest : List (Nat × message))
    (hstore : s.storage = (hdl, m) :: rest)
    (hbudget : budgetExhausted cfg.MaxAttempts m.toMessage.AttemptedCount = true) :
    pollOnce mockEnv cfg s =
      { s with receiveMessageInvokedCount := s.receiveMessageInvokedCount + 1 } := by
  simp only [pollOnce, mockEnv, mockReceive, hstore]
  rw [hbudget]
  simp

/-- Arithmetic of one mock send: when the resting envelope had less than a
second of slack and the Duration increment w stays a second away from the
int64 boundary, the DelaySeconds product round-trips through the clock
advance without wrapping, and the new slack is again under one second in
magnitude. -/
theorem sendStep_arith (next t w : Int)
    (hlo : -nsPerSecond < next - t) (hhi : next - t < nsPerSecond)
    (hw1 : -(2 ^ 63 - nsPerSecond) < w) (hw2 : w < 2 ^ 63 - nsPerSecond) :
    i64wrap (truncDiv (next + w - t) nsPerSecond * nsPerSecond) =
      truncDiv (next + w - t) nsPerSecond * nsPerSecond ∧
    -nsPerSecond < next + w - (t + truncDiv (next + w - t) nsPerSecond * nsPerSecond) ∧
    next + w - (t + truncDiv (next + w - t) nsPerSecond * nsPerSecond) < nsPerSecond := by
  have hts := truncDiv_sec_spec (next + w - t)
  have hns : nsPerSecond = 1000000000 := rfl
  refine ⟨?_, ?_, ?_⟩
  · rcases le_or_lt 0 (next + w - t) with h0 | h0
    · have h1 := hts.1 h0
      exact i64wrap_eq_self (by rw [hns] at h1 hlo hhi hw1 hw2 ⊢; omega)
        (by rw [hns] at h1 hlo hhi hw1 hw2 ⊢; omega)
    · have h1 := hts.2.1 (le_of_lt h0)
      exact i64wrap_eq_self (by rw [hns] at h1 hlo hhi hw1 hw2 ⊢; omega)
        (by rw [hns] at h1 hlo hhi hw1 hw2 ⊢; omega)
  · have h1 := hts.2.2.1
    rw [hns] at h1 ⊢
    omega
  · have h1 := hts.2.2.2
    rw [hns] at h1 ⊢
    omega

/-- One poll cycle below the budget preserves the scenario invariant: the
resting envelope is received, found due (slack under a second), worked
(handler still incomplete), re-enqueued under the next handle, and the
original message deleted; every counter advances by exactly one. -/
theorem pollOnce_step (N so : Int) (b : BackoffFunc) (k : Nat) (s : MockState)
    (hk : (k : Int) + 1 < N)
    (hso : (k : Int) + 1 + 1 < so)
    (hw1 : -(2 ^ 63 - nsPerSecond) < i64wrap (b (k + 1 + 1) * nsPerSecond))
    (hw2 : i64wrap (b (k + 1 + 1) * nsPerSecond) < 2 ^ 63 - nsPerSecond)
    (hInv : pollInv k s) :
    pollInv (k + 1) (pollOnce mockEnv (mockConfig N b so) s) := by
  obtain ⟨m, hst, hcnt, hlo, hhi, hh, hr, hsnd, hdel, herr⟩ := hInv
  have hbud : budgetExhausted N (k + 1) = false := by
    simp only [budgetExhausted, Bool.and_eq_false_iff, decide_eq_false_iff_not]
    right
    push_cast
    omega
  have hdue : ¬ 5 * nsPerSecond < m.NextAttempt - s.time := by
    have hns : nsPerSecond = 1000000000 := rfl
    rw [hns] at hhi ⊢
    omega
  have hcomp : decide (so ≤ (k : Int) + 1 + 1) = false := by
    simp only [decide_eq_false_iff_not]
    omega
  have harith := sendStep_arith m.NextAttempt s.time
    (i64wrap (b (k + 1 + 1) * nsPerSecond)) hlo hhi hw1 hw2
  have hne : ((k + 1 + 1 : Nat) != (k + 1 : Nat)) = true := by simp
  simp only [pollOnce, mockEnv, mockReceive, hst, mockConfig, hcnt, hbud,
    workMessage, computeMessageDelay, if_neg hdue, mockFuncInvoke, hh, hcomp,
    sendToQueue, mockSend, mockDelete, List.filter_cons, List.filter_nil,
    bne_self_eq_false, hne, List.cons_append, List.nil_append,
    Bool.false_eq_true, if_false, hr, hsnd, hdel, herr]
  refine ⟨_, rfl, rfl, ?_, ?_, ?_, rfl, rfl, rfl, rfl⟩
  · rw [harith.1]
    exact harith.2.1
  · rw [harith.1]
    exact harith.2.2
  · push_cast
    omega

/-- Submitting a job establishes the scenario invariant at cycle count 0: the
fresh envelope is due at once, the handler runs a first time (observing
counter 1), and the mutated envelope is enqueued under handle 1. -/
theorem pollInv_base (N so : Int) (b : BackoffFunc)
    (hb0 : b 0 = 0)
    (hso : 1 < so)
    (hw1 : -(2 ^ 63 - nsPerSecond) < i64wrap (b 1 * nsPerSecond))
    (hw2 : i64wrap (b 1 * nsPerSecond) < 2 ^ 63 - nsPerSecond) :
    pollInv 0 (Job mockEnv (mockConfig N b so) 0 mockInit).1 := by
  have hcomp : decide (so ≤ (1 : Int)) = false := by
    simp only [decide_eq_false_iff_not]
    omega
  have hdue : ¬ 5 * nsPerSecond < (0 : Int) := by decide
  simp only [Job, mockEnv, mockInit, mockConfig, workMessage, computeMessageDelay,
    hb0, add_zero, zero_add, sub_zero, if_neg hdue, mockFuncInvoke, hcomp,
    sendToQueue, mockSend, List.nil_append, Bool.false_eq_true, if_false]
  have hts := truncDiv_sec_spec (i64wrap (b 1 * nsPerSecond))
  have hns : nsPerSecond = 1000000000 := rfl
  have hiw : i64wrap (truncDiv (i64wrap (b 1 * nsPerSecond)) nsPerSecond * nsPerSecond)
      = truncDiv (i64wrap (b 1 * nsPerSecond)) nsPerSecond * nsPerSecond := by
    rcases le_or_lt 0 (i64wrap (b 1 * nsPerSecond)) with h0 | h0
    · have h1 := hts.1 h0
      exact i64wrap_eq_self (by rw [hns] at h1 hw1 hw2 ⊢; omega)
        (by rw [hns] at h1 hw1 hw2 ⊢; omega)
    · have h1 := hts.2.1 (le_of_lt h0)
      exact i64wrap_eq_self (by rw [hns] at h1 hw1 hw2 ⊢; omega)
        (by rw [hns] at h1 hw1 hw2 ⊢; omega)
  rw [hiw]
  exact ⟨_, rfl, rfl, hts.2.2.1, hts.2.2.2, rfl, rfl, rfl, rfl, rfl⟩

/-- C6 as the code and the repository's own budget-exhaustion test actually
behave: with budget N of at least 1, a work function that stays incomplete
for more than N invocations, and a backoff whose scaled increments stay clear
of the int64 boundary (true of the test's linear backoff), submitting one job
and then running N poll cycles produces exactly N work invocations, N sends,
N receives and N - 1 deletes, with no error reported; the Nth cycle receives
the envelope with counter N, hits the budget, and deliberately performs
neither work nor send nor delete. -/
theorem budget_exhaustion_counts (N : Nat) (b : BackoffFunc) (so : Int)
    (hN : 1 ≤ N)
    (hb0 : b 0 = 0)
    (hbw : ∀ j < N + 1, 1 ≤ j →
      -(2 ^ 63 - nsPerSecond) < i64wrap (b j * nsPerSecond) ∧
      i64wrap (b j * nsPerSecond) < 2 ^ 63 - nsPerSecond)
    (hso : (N : Int) < so) :
    (runRetry (N : Int) b so N).handlerInvokedCount = (N : Int) ∧
    (runRetry (N : Int) b so N).sendMessageInvokedCount = N ∧
    (runRetry (N : Int) b so N).receiveMessageInvokedCount = N ∧
    (runRetry (N : Int) b so N).deleteMessageInvokedCount = N - 1 ∧
    (runRetry (N : Int) b so N).errorCount = 0 := by
  obtain ⟨M, rfl⟩ : ∃ M, N = M + 1 := ⟨N - 1, (Nat.succ_pred_eq_of_pos hN).symm⟩
  have hso1 : 1 < so := by push_cast at hso; omega
  have key : ∀ j, j ≤ M →
      pollInv j (pollN mockEnv (mockConfig ((M + 1 : Nat) : Int) b so) j
        (Job mockEnv (mockConfig ((M + 1 : Nat) : Int) b so) 0 mockInit).1) := by
    intro j
    induction j with
    | zero =>
      intro _
      exact pollInv_base _ so b hb0 hso1
        (hbw 1 (by omega) (by omega)).1 (hbw 1 (by omega) (by omega)).2
    | succ j ih =>
      intro hj
      have hInv := ih (by omega)
      have hw := hbw (j + 1 + 1) (by omega) (by omega)
      have hk : ((j : Nat) : Int) + 1 < ((M + 1 : Nat) : Int) := by push_cast; omega
      have hsoj : ((j : Nat) : Int) + 1 + 1 < so := by push_cast at hso ⊢; omega
      exact pollOnce_step _ so b j _ hk hsoj hw.1 hw.2 hInv
  have hfin := key M le_rfl
  obtain ⟨m, hst, hcnt, hlo, hhi, hh, hr, hsnd, hdel, herr⟩ := hfin
  have hbudget : budgetExhausted
      (mockConfig ((M + 1 : Nat) : Int) b so).MaxAttempts
      m.toMessage.AttemptedCount = true := by
    simp only [mockConfig, budgetExhausted, hcnt, Bool.and_eq_true,
      bne_iff_ne, ne_eq, decide_eq_true_eq]
    constructor
    · push_cast
      omega
    · push_cast
      omega
  have habort := pollOnce_budget_aux _ _ (M + 1) m [] hst hbudget
  have hrun : runRetry ((M + 1 : Nat) : Int) b so (M + 1) =
      pollOnce mockEnv (mockConfig ((M + 1 : Nat) : Int) b so)
        (pollN mockEnv (mockConfig ((M + 1 : Nat) : Int) b so) M
          (Job mockEnv (mockConfig ((M + 1 : Nat) : Int) b so) 0 mockInit).1) := rfl
  rw [hrun, habort]
  refine ⟨?_, ?_, ?_, ?_, ?_⟩
  · show _ = ((M + 1 : Nat) : Int)
    simp only [hh]
    push_cast
    omega
  · simp only [hsnd]
  · simp only [hr]
  · simp only [hdel]
    omega
  · simp only [herr]

/-- Witness for budget_exhaustion_counts at the cited repository test (send
job to DLQ): budget 4, linear backoff seeded at 4 seconds, mockFunc
succeeding only on invocation 99; 4 cycles give 4 work invocations, 4 sends,
4 receives, 3 deletes and no error. -/
theorem budget_exhaustion_counts_witness :
    (runRetry 4 (LinearBackoff (4 * nsPerSecond)) 99 4).handlerInvokedCount = 4 ∧
    (runRetry 4 (LinearBackoff (4 * nsPerSecond)) 99 4).sendMessageInvokedCount = 4 ∧
    (runRetry 4 (LinearBackoff (4 * nsPerSecond)) 99 4).receiveMessageInvokedCount = 4 ∧
    (runRetry 4 (LinearBackoff (4 * nsPerSecond)) 99 4).deleteMessageInvokedCount = 3 ∧
    (runRetry 4 (LinearBackoff (4 * nsPerSecond)) 99 4).errorCount = 0 := by
  have h := budget_exhaustion_counts 4 (LinearBackoff (4 * nsPerSecond)) 99
    (by decide) (by decide) (by decide) (by decide)
  norm_num at h
  exact ⟨h.1, h.2.1, h.2.2.1, h.2.2.2.1, h.2.2.2.2⟩
